import Mathlib

/-!
Verification of the Graffiti API contract (graffiti-garden/api).

The repository declares an abstract, permissioned, channel-indexed object
store.  The concrete functions that ship with it are the access-control
utilities (`isActorAllowedGraffitiObject` and the two revisions of
`maskGraffitiObject` in `src/4-utilities.ts`).  The store operations
(`put`, `get`, `patch`, `delete`, `discover`) are declared abstractly and
pinned down by doc comments and a conformance test suite; those are
modelled here from the specification, with the real masking and visibility
functions plugged in where the spec uses them.
-/

/-- A JSON-like document, the type of an object's `value` and of the
documents handed to the JSON Patch capability. -/
inductive JSON where
  | null : JSON
  | bool (b : Bool) : JSON
  | num (n : Int) : JSON
  | str (s : String) : JSON
  | arr (elems : List JSON) : JSON
  | obj (fields : List (String × JSON)) : JSON

/-- The `allowed?: string[] | null` property of a Graffiti object:
absent (`undefined`), `null`, or an array of actor URIs.  In the
JavaScript source, `absent` and `nullv` are falsy and fail
`Array.isArray`, while any array (including the empty one) is truthy. -/
inductive AllowedProp where
  | absent : AllowedProp
  | nullv : AllowedProp
  | list (actors : List String) : AllowedProp
deriving DecidableEq, Repr

/-- The `GraffitiObjectBase` interface from `src/2-types.ts`. -/
structure GraffitiObjectBase where
  value : JSON
  channels : List String
  allowed : AllowedProp
  actor : String
  url : String
  lastModified : Nat

/-- The `GraffitiSession` interface from `src/2-types.ts`: at minimum the
actor URI the user authenticates with. -/
structure GraffitiSession where
  actor : String
deriving DecidableEq, Repr

/-- Embeds `isActorAllowedGraffitiObject` from `src/4-utilities.ts`:
the actor is allowed if `object.allowed` is not an array (absent or
`null`), or else if a session is present whose actor is the creator or a
member of the allowed list. -/
def isActorAllowedGraffitiObject (object : GraffitiObjectBase)
    (session : Option GraffitiSession) : Bool :=
  match object.allowed with
  | .absent => true
  | .nullv => true
  | .list allowed =>
    match session with
    | none => false
    | some s => object.actor == s.actor || allowed.contains s.actor

/-- Embeds the pure `maskGraffitiObject` from `src/4-utilities.ts`.  The
`actor?: string | null` parameter is an `Option String`.  The source
computes `object.allowed && actor ? [actor] : undefined`, so the masked
allowed list is the singleton of the actor exactly when `object.allowed`
is an array and the actor is a truthy (non-empty) string; the JavaScript
empty string is falsy, which this embedding reproduces. -/
def maskGraffitiObject (object : GraffitiObjectBase) (channels : List String)
    (actor : Option String) : GraffitiObjectBase :=
  if actor = some object.actor then object
  else
    let allowedMasked : AllowedProp :=
      match object.allowed, actor with
      | .absent, _ => .absent
      | .nullv, _ => .absent
      | .list _, none => .absent
      | .list _, some a => if a = "" then .absent else .list [a]
    { object with
        allowed := allowedMasked
        channels := object.channels.filter (fun c => channels.contains c) }

/-- Embeds the session-taking `maskGraffitiObject` revision (the mutating
variant shipped alongside the test suite).  That function mutates its
argument in place; this embedding returns the final state of the argument.
The source computes `object.allowed = object.allowed && session ?
[session.actor] : undefined`, guarded by `object.actor !== session?.actor`:
the truthiness test is on the session object itself, not on its actor
string. -/
def maskGraffitiObjectSession (object : GraffitiObjectBase)
    (channels : List String) (session : Option GraffitiSession) :
    GraffitiObjectBase :=
  if session.map (fun s => s.actor) = some object.actor then object
  else
    let allowedMasked : AllowedProp :=
      match object.allowed, session with
      | .absent, _ => .absent
      | .nullv, _ => .absent
      | .list _, none => .absent
      | .list _, some s => .list [s.actor]
    { object with
        allowed := allowedMasked
        channels := object.channels.filter (fun c => channels.contains c) }

/-- Modelled from the spec: the error taxonomy of section 7 (the repo only
declares error classes in `src/3-errors.ts` and uses them in tests). -/
inductive GraffitiError where
  | notFound : GraffitiError
  | forbidden : GraffitiError
  | schemaMismatch : GraffitiError
  | patchTestFailed : GraffitiError
  | patchError : GraffitiError
deriving DecidableEq, Repr

/-- Modelled from the spec: the object store maps each url to either a
live object or a tombstone `{url, lastModified}` left by a deletion. -/
inductive StoreEntry where
  | live (object : GraffitiObjectBase) : StoreEntry
  | tombstone (lastModified : Nat) : StoreEntry

/-- Modelled from the spec: the authoritative `url -> Object | Tombstone`
mapping, as an association list keyed by url. -/
abbrev Store := List (String × StoreEntry)

/-- Looks up the first entry stored at a url. -/
def storeLookup : Store → String → Option StoreEntry
  | [], _ => none
  | (u, e) :: rest, url => if u = url then some e else storeLookup rest url

/-- Replaces (or creates) the entry at a url. -/
def storeSet (store : Store) (url : String) (entry : StoreEntry) : Store :=
  (url, entry) :: store.filter (fun p => p.1 ≠ url)

/-- Modelled from the spec: a mutation's new `lastModified` is the current
time, made monotonic — never equal to or less than the previous value. -/
def newLastModified (prev now : Nat) : Nat := max now (prev + 1)

/-- The `GraffitiPutObject` type from `src/2-types.ts`: a `value`,
`channels`, optional `allowed` and an optional `url` of an existing object
to replace. -/
structure GraffitiPutObject where
  value : JSON
  channels : List String
  allowed : AllowedProp
  url : Option String

/-- Modelled from the spec: `Graffiti.put` is only declared abstractly.
With no `url`, a fresh unguessable url is generated (passed here as
`freshUrl`) and the previous state returned is an object with empty
`value`, `channels` and `allowed` list.  With a `url`, the call fails
NotFound if the url has never been created, has been deleted, or holds an
object the actor is not allowed to see, and Forbidden if the object is
visible but the actor is not its creator; on success the previous object
is returned with `lastModified` bumped to the time of this put. -/
def Graffiti.put (object : GraffitiPutObject) (session : GraffitiSession) (now : Nat)
    (freshUrl : String) (store : Store) :
    Except GraffitiError (GraffitiObjectBase × Store) :=
  match object.url with
  | none =>
    let created : GraffitiObjectBase :=
      { value := object.value, channels := object.channels,
        allowed := object.allowed, actor := session.actor,
        url := freshUrl, lastModified := now }
    let previous : GraffitiObjectBase :=
      { value := .obj [], channels := [], allowed := .list [],
        actor := session.actor, url := freshUrl, lastModified := now }
    .ok (previous, storeSet store freshUrl (.live created))
  | some url =>
    match storeLookup store url with
    | none => .error .notFound
    | some (.tombstone _) => .error .notFound
    | some (.live prev) =>
      if isActorAllowedGraffitiObject prev (some session) = false then
        .error .notFound
      else if session.actor = prev.actor then
        let t := newLastModified prev.lastModified now
        let replaced : GraffitiObjectBase :=
          { value := object.value, channels := object.channels,
            allowed := object.allowed, actor := prev.actor,
            url := url, lastModified := t }
        .ok ({ prev with lastModified := t }, storeSet store url (.live replaced))
      else .error .forbidden

/-- Modelled from the spec: `Graffiti.get` is only declared abstractly.
It fails NotFound when no live object exists at the url or when the actor
is not allowed to access it; otherwise it masks the object (a get queries
no channels) before validating it against the caller's schema, modelled as
a predicate since JSON Schema internals are an external capability. -/
def Graffiti.get (url : String) (schema : GraffitiObjectBase → Bool)
    (session : Option GraffitiSession) (store : Store) :
    Except GraffitiError GraffitiObjectBase :=
  match storeLookup store url with
  | none => .error .notFound
  | some (.tombstone _) => .error .notFound
  | some (.live o) =>
    if isActorAllowedGraffitiObject o session = false then .error .notFound
    else
      let masked := maskGraffitiObject o [] (session.map (fun s => s.actor))
      if schema masked then .ok masked else .error .schemaMismatch

/-- Modelled from the spec: `Graffiti.delete` is only declared abstractly.
NotFound if absent, deleted or invisible; Forbidden if visible but not the
creator; on success the url becomes a tombstone and the pre-delete object
is returned with `lastModified` bumped to the deletion time. -/
def Graffiti.delete (url : String) (session : GraffitiSession) (now : Nat)
    (store : Store) : Except GraffitiError (GraffitiObjectBase × Store) :=
  match storeLookup store url with
  | none => .error .notFound
  | some (.tombstone _) => .error .notFound
  | some (.live o) =>
    if isActorAllowedGraffitiObject o (some session) = false then
      .error .notFound
    else if session.actor = o.actor then
      let t := newLastModified o.lastModified now
      .ok ({ o with lastModified := t }, storeSet store url (.tombstone t))
    else .error .forbidden

/-- Modelled from the spec: the outcome of the external JSON Patch
capability — either a structural error or a failed `test` assertion. -/
inductive PatchFailure where
  | testFailed : PatchFailure
  | structural : PatchFailure
deriving DecidableEq, Repr

/-- The `GraffitiPatch` interface from `src/2-types.ts`: an optional list
of JSON Patch operations for each of the `value`, `channels` and `allowed`
properties.  The operation type is abstract, as is the engine applying
it. -/
structure GraffitiPatch (Op : Type) where
  value : Option (List Op)
  channels : Option (List Op)
  allowed : Option (List Op)

/-- Renders a channels list as the JSON document handed to the patch
engine. -/
def jsonOfChannels (channels : List String) : JSON :=
  .arr (channels.map .str)

/-- Renders the `allowed` property as the JSON document handed to the
patch engine; the absent and null states are both rendered as JSON
null. -/
def jsonOfAllowed : AllowedProp → JSON
  | .absent => .null
  | .nullv => .null
  | .list l => .arr (l.map .str)

/-- Decodes a JSON array of strings, failing on anything else. -/
def stringsOfJSONList : List JSON → Option (List String)
  | [] => some []
  | .str s :: rest => (stringsOfJSONList rest).map (fun l => s :: l)
  | _ => none

/-- Decodes a patched channels document: it must still be an array of
strings. -/
def channelsOfJSON : JSON → Option (List String)
  | .arr elems => stringsOfJSONList elems
  | _ => none

/-- Decodes a patched allowed document: it must still be an array of
strings, or null/absent. -/
def allowedOfJSON : JSON → Option AllowedProp
  | .null => some .absent
  | .arr elems => (stringsOfJSONList elems).map .list
  | _ => none

/-- Modelled from the spec: applies one field's optional patch operation
list through the external engine, translating its failures into the API's
patch errors. -/
def applyFieldPatch {Op : Type}
    (engine : List Op → JSON → Except PatchFailure JSON)
    (ops : Option (List Op)) (doc : JSON) : Except GraffitiError JSON :=
  match ops with
  | none => .ok doc
  | some ops =>
    match engine ops doc with
    | .ok result => .ok result
    | .error .testFailed => .error .patchTestFailed
    | .error .structural => .error .patchError

/-- Modelled from the spec: applies all three field patch lists to an
object's fields, enforcing that `value` stays an object, `channels` stays
a string array and `allowed` stays a string array or absent; any failure
rejects the whole computation. -/
def patchObjectFields {Op : Type}
    (engine : List Op → JSON → Except PatchFailure JSON)
    (p : GraffitiPatch Op) (o : GraffitiObjectBase) :
    Except GraffitiError (JSON × List String × AllowedProp) :=
  match applyFieldPatch engine p.value o.value with
  | .error e => .error e
  | .ok valueRaw =>
    match valueRaw with
    | .obj fields =>
      match applyFieldPatch engine p.channels (jsonOfChannels o.channels) with
      | .error e => .error e
      | .ok channelsRaw =>
        match channelsOfJSON channelsRaw with
        | none => .error .patchError
        | some channels =>
          match applyFieldPatch engine p.allowed (jsonOfAllowed o.allowed) with
          | .error e => .error e
          | .ok allowedRaw =>
            match allowedOfJSON allowedRaw with
            | none => .error .patchError
            | some allowed => .ok (.obj fields, channels, allowed)
    | _ => .error .patchError

/-- Modelled from the spec: the core of `Graffiti.patch`, abstracted over
the already-assembled field patching computation.  NotFound if absent,
deleted or invisible; Forbidden if visible but not the creator; then the
field patches are applied all-or-nothing and, on success, committed with a
bumped `lastModified` while the pre-patch object is returned. -/
def Graffiti.patchWith
    (fieldsPatcher : GraffitiObjectBase →
      Except GraffitiError (JSON × List String × AllowedProp))
    (url : String) (session : GraffitiSession) (now : Nat) (store : Store) :
    Except GraffitiError (GraffitiObjectBase × Store) :=
  match storeLookup store url with
  | none => .error .notFound
  | some (.tombstone _) => .error .notFound
  | some (.live o) =>
    if isActorAllowedGraffitiObject o (some session) = false then
      .error .notFound
    else if session.actor = o.actor then
      match fieldsPatcher o with
      | .error e => .error e
      | .ok (value, channels, allowed) =>
        let t := newLastModified o.lastModified now
        let patched : GraffitiObjectBase :=
          { o with value := value, channels := channels,
                   allowed := allowed, lastModified := t }
        .ok ({ o with lastModified := t }, storeSet store url (.live patched))
    else .error .forbidden

/-- Modelled from the spec: `Graffiti.patch` is only declared abstractly;
this is `patchWith` applied to the three field patch lists. -/
def Graffiti.patch {Op : Type} (engine : List Op → JSON → Except PatchFailure JSON)
    (p : GraffitiPatch Op) (url : String) (session : GraffitiSession)
    (now : Nat) (store : Store) :
    Except GraffitiError (GraffitiObjectBase × Store) :=
  Graffiti.patchWith (patchObjectFields engine p) url session now store

/-- Modelled from the spec: one candidate's contribution to a discover
stream.  A live object is emitted when it belongs to at least one queried
channel, is visible to the requester, and its masked view — masking is
applied before schema validation — satisfies the caller's schema. -/
def Graffiti.discoverEntryOfLive (channels : List String)
    (schema : GraffitiObjectBase → Bool) (session : Option GraffitiSession)
    (o : GraffitiObjectBase) : Option GraffitiObjectBase :=
  if o.channels.any (fun c => channels.contains c) then
    if isActorAllowedGraffitiObject o session then
      let masked := maskGraffitiObject o channels (session.map (fun s => s.actor))
      if schema masked then some masked else none
    else none
  else none

/-- Modelled from the spec: a fresh `Graffiti.discover` over the store,
as the list of emitted masked objects.  Tombstones are never emitted by a
fresh stream (they only appear on continuations), and invisible or
non-matching candidates are silently skipped. -/
def Graffiti.discover (channels : List String) (schema : GraffitiObjectBase → Bool)
    (session : Option GraffitiSession) (store : Store) :
    List GraffitiObjectBase :=
  store.filterMap (fun p =>
    match p.2 with
    | .live o => Graffiti.discoverEntryOfLive channels schema session o
    | .tombstone _ => none)

/-- Modelled from the spec: a single mutation request against the store.
A patch carries its field patching computation (any engine and patch pair
induces one via `patchObjectFields`). -/
inductive GraffitiOp where
  | putOp (object : GraffitiPutObject) (session : GraffitiSession)
      (now : Nat) (freshUrl : String) : GraffitiOp
  | patchOp (fieldsPatcher : GraffitiObjectBase →
        Except GraffitiError (JSON × List String × AllowedProp))
      (url : String) (session : GraffitiSession) (now : Nat) : GraffitiOp
  | deleteOp (url : String) (session : GraffitiSession) (now : Nat) :
      GraffitiOp

/-- Runs one mutation against the store; a failed mutation leaves the
store unchanged. -/
def applyOp (op : GraffitiOp) (store : Store) : Store :=
  match op with
  | .putOp o s n f =>
    match Graffiti.put o s n f store with
    | .ok (_, st) => st
    | .error _ => store
  | .patchOp fp u s n =>
    match Graffiti.patchWith fp u s n store with
    | .ok (_, st) => st
    | .error _ => store
  | .deleteOp u s n =>
    match Graffiti.delete u s n store with
    | .ok (_, st) => st
    | .error _ => store

/-- Runs a sequence of mutations left to right. -/
def applyOps : List GraffitiOp → Store → Store
  | [], store => store
  | op :: rest, store => applyOps rest (applyOp op store)

/-- A creating put must use a url that is globally fresh: not the key of
any entry, live or tombstoned.  All other operations are unconstrained. -/
def freshOk (op : GraffitiOp) (store : Store) : Bool :=
  match op with
  | .putOp o _ _ f => o.url.isSome || (storeLookup store f).isNone
  | _ => true

/-- Every creating put along an operation sequence uses a url fresh for
the store it runs against. -/
def FreshAlong : List GraffitiOp → Store → Bool
  | [], _ => true
  | op :: rest, store => freshOk op store && FreshAlong rest (applyOp op store)

/-- A stored live object's `url` field agrees with its key. -/
def entryUrlConsistent (p : String × StoreEntry) : Bool :=
  match p.2 with
  | .live o => decide (o.url = p.1)
  | .tombstone _ => true

/-- A well-formed store has no duplicate urls and every live object
records the url it is stored under. -/
def WellFormedStore (store : Store) : Prop :=
  (store.map Prod.fst).Nodup ∧ ∀ p ∈ store, entryUrlConsistent p = true

lemma filter_self_idem (p : String → Bool) (l : List String) :
    (l.filter p).filter p = l.filter p := by
  induction l with
  | nil => rfl
  | cons x xs ih =>
    by_cases h : p x = true
    · simp [List.filter, h, ih]
    · simp [List.filter, h, ih]

/-- C9: masking is idempotent — applying `maskGraffitiObject` a second
time with the same queried channels and actor changes nothing. -/
theorem maskGraffitiObject_idempotent (o : GraffitiObjectBase)
    (channels : List String) (actor : Option String) :
    maskGraffitiObject (maskGraffitiObject o channels actor) channels actor
      = maskGraffitiObject o channels actor := by
  rcases o with ⟨v, cs, al, act, u, lm⟩
  by_cases h : actor = some act
  · simp [maskGraffitiObject, h]
  · rcases actor with _ | a
    · cases al <;>
        simp [maskGraffitiObject, h, filter_self_idem]
    · have ha : ¬ a = act := fun hc => h (by rw [hc])
      by_cases he : a = ""
      · subst he
        cases al <;>
          simp [maskGraffitiObject, ha, filter_self_idem]
      · cases al <;>
          simp [maskGraffitiObject, ha, he, filter_self_idem]

/-- C10 (amended): the two masking revisions agree for every session
whose actor is a non-empty string (and for absent sessions) — the
in-place, session-taking `maskGraffitiObject` leaves its argument in the
state the pure, actor-taking revision returns for the session's actor —
and both revisions always leave `value`, `actor`, `url` and
`lastModified` untouched. -/
theorem maskGraffitiObjectSession_agrees (o : GraffitiObjectBase)
    (channels : List String) (session : Option GraffitiSession) :
    (session.map (fun s => s.actor) ≠ some "" →
      maskGraffitiObjectSession o channels session
        = maskGraffitiObject o channels (session.map (fun s => s.actor))) ∧
    (maskGraffitiObjectSession o channels session).value = o.value ∧
    (maskGraffitiObjectSession o channels session).actor = o.actor ∧
    (maskGraffitiObjectSession o channels session).url = o.url ∧
    (maskGraffitiObjectSession o channels session).lastModified
      = o.lastModified ∧
    (maskGraffitiObject o channels (session.map (fun s => s.actor))).value
      = o.value ∧
    (maskGraffitiObject o channels (session.map (fun s => s.actor))).actor
      = o.actor ∧
    (maskGraffitiObject o channels (session.map (fun s => s.actor))).url
      = o.url ∧
    (maskGraffitiObject o channels (session.map (fun s => s.actor))).lastModified
      = o.lastModified := by
  rcases o with ⟨v, cs, al, act, u, lm⟩
  rcases session with _ | s
  · refine ⟨fun _ => ?_, ?_, ?_, ?_, ?_, ?_, ?_, ?_, ?_⟩ <;>
      cases al <;>
        simp [maskGraffitiObject, maskGraffitiObjectSession]
  · by_cases h : s.actor = act
    · refine ⟨fun _ => ?_, ?_, ?_, ?_, ?_, ?_, ?_, ?_, ?_⟩ <;>
        simp [maskGraffitiObject, maskGraffitiObjectSession, h]
    · refine ⟨fun hne => ?_, ?_, ?_, ?_, ?_, ?_, ?_, ?_, ?_⟩
      · have hne' : ¬ s.actor = "" := by
          intro hc
          exact hne (by simp [hc])
        cases al <;>
          simp [maskGraffitiObject, maskGraffitiObjectSession, h, hne']
      all_goals
        cases al <;>
          simp [maskGraffitiObject, maskGraffitiObjectSession, h,
            apply_ite GraffitiObjectBase.value,
            apply_ite GraffitiObjectBase.actor,
            apply_ite GraffitiObjectBase.url,
            apply_ite GraffitiObjectBase.lastModified]

/-- A concrete private object used to exhibit the divergence of the two
masking revisions on the empty-string actor. -/
def divergenceObject : GraffitiObjectBase :=
  { value := .obj [], channels := ["c", "d"], allowed := .list ["x"],
    actor := "alice", url := "u", lastModified := 5 }

/-- C10 (counterexample): for a session whose actor is the empty string,
the in-place revision masks `allowed` to `[""]` (the session object is
truthy) while the pure revision, called with that session's actor, drops
`allowed` entirely (the empty string is falsy), so the two revisions do
not agree on every object, channel list and session. -/
theorem maskGraffitiObjectSession_empty_actor_diverges :
    (maskGraffitiObjectSession divergenceObject ["c"] (some ⟨""⟩)).allowed
      = .list [""] ∧
    (maskGraffitiObject divergenceObject ["c"] (some "")).allowed
      = .absent ∧
    maskGraffitiObjectSession divergenceObject ["c"] (some ⟨""⟩)
      ≠ maskGraffitiObject divergenceObject ["c"] (some "") := by
  refine ⟨rfl, rfl, fun h => ?_⟩
  exact absurd (congrArg GraffitiObjectBase.allowed h) (by decide)

/-- C10 (witness): the amended agreement at a concrete object and a
session with a non-empty actor. -/
theorem maskGraffitiObjectSession_agrees_witness :
    maskGraffitiObjectSession divergenceObject ["c"] (some ⟨"bob"⟩)
      = maskGraffitiObject divergenceObject ["c"]
          ((some (GraffitiSession.mk "bob")).map (fun s => s.actor)) :=
  (maskGraffitiObjectSession_agrees divergenceObject ["c"]
    (some ⟨"bob"⟩)).1 (by decide)

lemma filter_contains_nil (l : List String) :
    l.filter (fun c => ([] : List String).contains c) = [] := by
  induction l with
  | nil => rfl
  | cons x xs ih => simp [List.filter, ih]

lemma maskGraffitiObject_fields (o : GraffitiObjectBase) (C : List String)
    (a : String) (hne : a ≠ o.actor) (hnonempty : a ≠ "") :
    (maskGraffitiObject o C (some a)).channels
        = o.channels.filter (fun c => C.contains c) ∧
    (∀ l, o.allowed = .list l →
      (maskGraffitiObject o C (some a)).allowed = .list [a]) ∧
    (o.allowed = .absent →
      (maskGraffitiObject o C (some a)).allowed = .absent) ∧
    (maskGraffitiObject o C (some a)).value = o.value ∧
    (maskGraffitiObject o C (some a)).actor = o.actor ∧
    (maskGraffitiObject o C (some a)).url = o.url ∧
    (maskGraffitiObject o C (some a)).lastModified = o.lastModified := by
  rcases o with ⟨v, cs, al, act, u, lm⟩
  simp only at hne
  cases al <;>
    simp [maskGraffitiObject, hne, hnonempty]

lemma maskGraffitiObject_creator (o : GraffitiObjectBase) (C : List String) :
    maskGraffitiObject o C (some o.actor) = o := by
  simp [maskGraffitiObject]

lemma isActorAllowed_creator (o : GraffitiObjectBase) :
    isActorAllowedGraffitiObject o (some ⟨o.actor⟩) = true := by
  rcases o with ⟨v, cs, al, act, u, lm⟩
  cases al <;> simp [isActorAllowedGraffitiObject]

lemma get_live (url : String) (schema : GraffitiObjectBase → Bool)
    (session : Option GraffitiSession) (store : Store)
    (o : GraffitiObjectBase)
    (hlive : storeLookup store url = some (.live o))
    (hvis : isActorAllowedGraffitiObject o session = true) :
    Graffiti.get url schema session store =
      (if schema (maskGraffitiObject o [] (session.map (fun s => s.actor)))
        then .ok (maskGraffitiObject o [] (session.map (fun s => s.actor)))
        else .error .schemaMismatch) := by
  unfold Graffiti.get
  rw [hlive]
  simp [hvis]

/-- C1 (amended): for a requester with a non-empty identity who is
permitted to see an object but is not its creator, the view returned by
get has `allowed` equal to the singleton of the requester exactly when
the object's `allowed` was present, absent when it was absent, and
`channels` empty (a get queries no channels); the view emitted by
discover additionally has `channels` equal to the intersection of the
object's channels with the queried list; the creator always receives the
object unchanged. -/
theorem get_discover_masked_view
    (store : Store) (url : String) (o : GraffitiObjectBase)
    (sess : GraffitiSession) (C : List String)
    (schema : GraffitiObjectBase → Bool)
    (hlive : storeLookup store url = some (.live o))
    (hvis : isActorAllowedGraffitiObject o (some sess) = true)
    (hne : sess.actor ≠ o.actor)
    (hnonempty : sess.actor ≠ "") :
    (∀ v, Graffiti.get url schema (some sess) store = .ok v →
      v.channels = [] ∧
      (∀ l, o.allowed = .list l → v.allowed = .list [sess.actor]) ∧
      (o.allowed = .absent → v.allowed = .absent) ∧
      v.value = o.value ∧ v.actor = o.actor ∧ v.url = o.url ∧
      v.lastModified = o.lastModified) ∧
    (∀ v, Graffiti.discoverEntryOfLive C schema (some sess) o = some v →
      v.channels = o.channels.filter (fun c => C.contains c) ∧
      (∀ l, o.allowed = .list l → v.allowed = .list [sess.actor]) ∧
      (o.allowed = .absent → v.allowed = .absent) ∧
      v.value = o.value ∧ v.actor = o.actor ∧ v.url = o.url ∧
      v.lastModified = o.lastModified) ∧
    (∀ schemaCr v, Graffiti.get url schemaCr (some ⟨o.actor⟩) store = .ok v →
      v = o) ∧
    (∀ CCr schemaCr v,
      Graffiti.discoverEntryOfLive CCr schemaCr (some ⟨o.actor⟩) o = some v →
      v = o) := by
  have hmask := maskGraffitiObject_fields o C sess.actor hne hnonempty
  have hmaskGet := maskGraffitiObject_fields o [] sess.actor hne hnonempty
  refine ⟨?_, ?_, ?_, ?_⟩
  · intro v hv
    rw [get_live url schema (some sess) store o hlive hvis] at hv
    simp only [Option.map_some'] at hv
    split at hv
    · cases hv
      exact ⟨hmaskGet.1.trans (filter_contains_nil o.channels), hmaskGet.2.1,
        hmaskGet.2.2.1, hmaskGet.2.2.2.1, hmaskGet.2.2.2.2.1,
        hmaskGet.2.2.2.2.2.1, hmaskGet.2.2.2.2.2.2⟩
    · exact absurd hv (by simp)
  · intro v hv
    unfold Graffiti.discoverEntryOfLive at hv
    simp only [Option.map_some'] at hv
    repeat' split at hv
    all_goals
      first
      | (cases hv; exact hmask)
      | exact absurd hv (by simp)
  · intro schemaCr v hv
    rw [get_live url schemaCr (some ⟨o.actor⟩) store o hlive
      (isActorAllowed_creator o)] at hv
    simp only [Option.map_some', maskGraffitiObject_creator] at hv
    split at hv
    · cases hv; rfl
    · exact absurd hv (by simp)
  · intro CCr schemaCr v hv
    unfold Graffiti.discoverEntryOfLive at hv
    simp only [Option.map_some', maskGraffitiObject_creator,
      isActorAllowed_creator] at hv
    repeat' split at hv
    all_goals
      first
      | (cases hv; rfl)
      | exact absurd hv (by simp)

/-- A concrete private object whose allowed list contains the empty-string
identity. -/
def emptyActorObject : GraffitiObjectBase :=
  { value := .obj [], channels := ["c"], allowed := .list ["", "bob"],
    actor := "alice", url := "u", lastModified := 1 }

/-- C1 (counterexample): the requester with identity `""` is permitted to
see the object and is not its creator, yet the view returned by get has
its `allowed` property absent rather than equal to the singleton of the
requester: the source guard `object.allowed && actor` treats the empty
string as falsy. -/
theorem get_masked_allowed_empty_actor_counterexample :
    isActorAllowedGraffitiObject emptyActorObject (some ⟨""⟩) = true ∧
    ("" : String) ≠ emptyActorObject.actor ∧
    emptyActorObject.allowed = .list ["", "bob"] ∧
    Graffiti.get emptyActorObject.url (fun _ => true) (some ⟨""⟩)
        [(emptyActorObject.url, .live emptyActorObject)]
      = .ok { emptyActorObject with allowed := .absent, channels := [] } ∧
    AllowedProp.absent ≠ AllowedProp.list [""] :=
  ⟨rfl, by decide, rfl, rfl, by decide⟩

/-- A concrete private object shared with a non-empty requester
identity. -/
def sharedObject : GraffitiObjectBase :=
  { value := .obj [], channels := ["c1", "c2"], allowed := .list ["bob"],
    actor := "alice", url := "w", lastModified := 3 }

/-- C1 (witness): the amended masking statement at a concrete store,
object and requester. -/
theorem get_discover_masked_view_witness :
    (∀ v, Graffiti.get "w" (fun _ => true) (some ⟨"bob"⟩)
        [("w", .live sharedObject)] = .ok v →
      v.channels = [] ∧
      (∀ l, sharedObject.allowed = .list l →
        v.allowed = .list [GraffitiSession.actor ⟨"bob"⟩]) ∧
      (sharedObject.allowed = .absent → v.allowed = .absent) ∧
      v.value = sharedObject.value ∧ v.actor = sharedObject.actor ∧
      v.url = sharedObject.url ∧ v.lastModified = sharedObject.lastModified) ∧
    (∀ v, Graffiti.discoverEntryOfLive ["c1"] (fun _ => true) (some ⟨"bob"⟩)
        sharedObject = some v →
      v.channels = sharedObject.channels.filter (fun c => ["c1"].contains c) ∧
      (∀ l, sharedObject.allowed = .list l →
        v.allowed = .list [GraffitiSession.actor ⟨"bob"⟩]) ∧
      (sharedObject.allowed = .absent → v.allowed = .absent) ∧
      v.value = sharedObject.value ∧ v.actor = sharedObject.actor ∧
      v.url = sharedObject.url ∧ v.lastModified = sharedObject.lastModified) ∧
    (∀ schemaCr v, Graffiti.get "w" schemaCr (some ⟨sharedObject.actor⟩)
        [("w", .live sharedObject)] = .ok v → v = sharedObject) ∧
    (∀ CCr schemaCr v, Graffiti.discoverEntryOfLive CCr schemaCr
        (some ⟨sharedObject.actor⟩) sharedObject = some v →
      v = sharedObject) :=
  get_discover_masked_view [("w", .live sharedObject)] "w" sharedObject
    ⟨"bob"⟩ ["c1"] (fun _ => true) rfl rfl (by decide) (by decide)

/-- C2: get collapses "no live object at the url" (never created, or
deleted) and "live object invisible to the session" into the very same
NotFound error, while delete, patch and replacing put by a session that
can see the object but is not its creator fail with Forbidden, never
NotFound. -/
theorem visibility_error_semantics
    (store : Store) (url : String) (schema : GraffitiObjectBase → Bool) :
    (∀ sessOpt, storeLookup store url = none →
      Graffiti.get url schema sessOpt store = .error .notFound) ∧
    (∀ sessOpt t, storeLookup store url = some (.tombstone t) →
      Graffiti.get url schema sessOpt store = .error .notFound) ∧
    (∀ sessOpt o, storeLookup store url = some (.live o) →
      isActorAllowedGraffitiObject o sessOpt = false →
      Graffiti.get url schema sessOpt store = .error .notFound) ∧
    (∀ o sess now, storeLookup store url = some (.live o) →
      isActorAllowedGraffitiObject o (some sess) = true →
      sess.actor ≠ o.actor →
      Graffiti.delete url sess now store = .error .forbidden ∧
      (∀ (Op : Type) (engine : List Op → JSON → Except PatchFailure JSON)
        (p : GraffitiPatch Op),
        Graffiti.patch engine p url sess now store = .error .forbidden) ∧
      (∀ (obj : GraffitiPutObject) (freshUrl : String), obj.url = some url →
        Graffiti.put obj sess now freshUrl store = .error .forbidden)) := by
  refine ⟨?_, ?_, ?_, ?_⟩
  · intro sessOpt h
    unfold Graffiti.get
    rw [h]
  · intro sessOpt t h
    unfold Graffiti.get
    rw [h]
  · intro sessOpt o h hinvis
    unfold Graffiti.get
    rw [h]
    simp [hinvis]
  · intro o sess now h hvis hne
    refine ⟨?_, ?_, ?_⟩
    · unfold Graffiti.delete
      rw [h]
      simp [hvis, hne]
    · intro Op engine p
      unfold Graffiti.patch Graffiti.patchWith
      rw [h]
      simp [hvis, hne]
    · intro obj freshUrl hobj
      unfold Graffiti.put
      rw [hobj]
      simp [h, hvis, hne]

/-- A concrete private object used to exhibit the error semantics. -/
def visObject : GraffitiObjectBase :=
  { value := .obj [], channels := ["c"], allowed := .list ["bob"],
    actor := "alice", url := "v", lastModified := 2 }

/-- C2 (witness): the error semantics at concrete stores — a url never
created, a deleted url, an invisible object, and a visible object
mutated by a non-creator. -/
theorem visibility_error_semantics_witness :
    Graffiti.get "nope" (fun _ => true) none ([] : Store)
      = .error .notFound ∧
    Graffiti.get "t" (fun _ => true) (some ⟨"alice"⟩) [("t", .tombstone 7)]
      = .error .notFound ∧
    Graffiti.get "v" (fun _ => true) (some ⟨"eve"⟩) [("v", .live visObject)]
      = .error .notFound ∧
    Graffiti.delete "v" ⟨"bob"⟩ 9 [("v", .live visObject)]
      = .error .forbidden ∧
    Graffiti.patch (fun (_ : List Unit) j => .ok j)
        ⟨none, none, none⟩ "v" ⟨"bob"⟩ 9 [("v", .live visObject)]
      = .error .forbidden ∧
    Graffiti.put ⟨.obj [], [], .absent, some "v"⟩ ⟨"bob"⟩ 9 "f"
        [("v", .live visObject)]
      = .error .forbidden := by
  refine ⟨?_, ?_, ?_, ?_, ?_, ?_⟩
  · exact (visibility_error_semantics [] "nope" (fun _ => true)).1 none rfl
  · exact (visibility_error_semantics [("t", .tombstone 7)] "t"
      (fun _ => true)).2.1 (some ⟨"alice"⟩) 7 rfl
  · exact (visibility_error_semantics [("v", .live visObject)] "v"
      (fun _ => true)).2.2.1 (some ⟨"eve"⟩) visObject rfl (by decide)
  · exact ((visibility_error_semantics [("v", .live visObject)] "v"
      (fun _ => true)).2.2.2 visObject ⟨"bob"⟩ 9 rfl (by decide) (by decide)).1
  · exact ((visibility_error_semantics [("v", .live visObject)] "v"
      (fun _ => true)).2.2.2 visObject ⟨"bob"⟩ 9 rfl (by decide) (by decide)).2.1
      Unit (fun _ j => .ok j) ⟨none, none, none⟩
  · exact ((visibility_error_semantics [("v", .live visObject)] "v"
      (fun _ => true)).2.2.2 visObject ⟨"bob"⟩ 9 rfl (by decide) (by decide)).2.2
      ⟨.obj [], [], .absent, some "v"⟩ "f" rfl

lemma storeLookup_storeSet_self (store : Store) (url : String)
    (e : StoreEntry) : storeLookup (storeSet store url e) url = some e := by
  simp [storeSet, storeLookup]

lemma storeLookup_filter_ne (store : Store) (url v : String) (hne : v ≠ url) :
    storeLookup (store.filter (fun p => !decide (p.1 = url))) v
      = storeLookup store v := by
  induction store with
  | nil => rfl
  | cons p rest ih =>
    rcases p with ⟨u, e⟩
    have hvu : ¬ url = v := fun hc => hne hc.symm
    by_cases hp : u = url
    · subst hp
      simp [List.filter_cons, storeLookup, hvu, ih]
    · by_cases huv : u = v
      · subst huv
        simp [List.filter_cons, storeLookup, hne, ih]
      · simp [List.filter_cons, storeLookup, hp, huv, ih]

lemma storeLookup_storeSet_ne (store : Store) (url v : String)
    (e : StoreEntry) (hne : v ≠ url) :
    storeLookup (storeSet store url e) v = storeLookup store v := by
  have h1 : ¬ url = v := fun hc => hne hc.symm
  simp [storeSet, storeLookup, h1, storeLookup_filter_ne store url v hne]

lemma storeLookup_mem (store : Store) (url : String) (e : StoreEntry)
    (h : storeLookup store url = some e) : (url, e) ∈ store := by
  induction store with
  | nil => cases h
  | cons p rest ih =>
    rcases p with ⟨u, e'⟩
    unfold storeLookup at h
    by_cases hu : u = url
    · rw [if_pos hu] at h
      cases h
      subst hu
      exact List.mem_cons_self _ _
    · rw [if_neg hu] at h
      exact List.mem_cons_of_mem _ (ih h)

lemma storeLookup_of_mem (store : Store) (u : String) (e : StoreEntry)
    (hnd : (store.map Prod.fst).Nodup) (hm : (u, e) ∈ store) :
    storeLookup store u = some e := by
  induction store with
  | nil => cases hm
  | cons p rest ih =>
    rcases p with ⟨u', e'⟩
    rcases List.mem_cons.mp hm with h1 | h2
    · cases h1
      simp [storeLookup]
    · by_cases hu : u' = u
      · exfalso
        have hmem : u' ∈ rest.map Prod.fst := by
          rw [hu]
          exact List.mem_map_of_mem Prod.fst h2
        exact (List.nodup_cons.mp hnd).1 hmem
      · simp [storeLookup, hu,
          ih (List.nodup_cons.mp hnd).2 h2]

lemma wf_lookup_live_url (store : Store) (url : String)
    (o : GraffitiObjectBase) (hwf : WellFormedStore store)
    (h : storeLookup store url = some (.live o)) : o.url = url := by
  have hm := storeLookup_mem store url _ h
  have hc := hwf.2 _ hm
  simpa [entryUrlConsistent] using hc

lemma wellFormed_storeSet (store : Store) (url : String) (e : StoreEntry)
    (he : entryUrlConsistent (url, e) = true) (hwf : WellFormedStore store) :
    WellFormedStore (storeSet store url e) := by
  constructor
  · rw [storeSet, List.map_cons, List.nodup_cons]
    constructor
    · intro hmem
      obtain ⟨p, hp, hpe⟩ := List.mem_map.mp hmem
      have := List.of_mem_filter hp
      simp at this
      exact this hpe
    · exact (List.Sublist.map Prod.fst (List.filter_sublist store)).nodup hwf.1
  · intro p hp
    rcases List.mem_cons.mp hp with h1 | h2
    · rw [h1]; exact he
    · exact hwf.2 _ (List.mem_of_mem_filter h2)

lemma applyOp_cases (op : GraffitiOp) (store : Store)
    (hfresh : freshOk op store = true) :
    applyOp op store = store ∨
    ∃ u e, applyOp op store = storeSet store u e ∧
      (storeLookup store u = none ∨
        ∃ prev, storeLookup store u = some (.live prev)) ∧
      (∀ o, e = .live o →
        o.url = u ∨
        ∃ prev, storeLookup store u = some (.live prev) ∧ o.url = prev.url) := by
  cases op with
  | putOp obj sess now f =>
    cases hobj : obj.url with
    | none =>
      have hf : storeLookup store f = none := by
        simp only [freshOk, hobj] at hfresh
        simpa using hfresh
      refine Or.inr ⟨f,
        StoreEntry.live
          { value := obj.value
            channels := obj.channels
            allowed := obj.allowed
            actor := sess.actor
            url := f
            lastModified := now }, ?_, Or.inl hf, ?_⟩
      · simp [applyOp, Graffiti.put, hobj]
      · intro o ho
        cases ho
        exact Or.inl rfl
    | some u =>
      cases hlk : storeLookup store u with
      | none => exact Or.inl (by simp [applyOp, Graffiti.put, hobj, hlk])
      | some entry =>
        cases entry with
        | tombstone t =>
          exact Or.inl (by simp [applyOp, Graffiti.put, hobj, hlk])
        | live prev =>
          by_cases hv : isActorAllowedGraffitiObject prev (some sess) = false
          · exact Or.inl (by simp [applyOp, Graffiti.put, hobj, hlk, hv])
          · by_cases ha : sess.actor = prev.actor
            · refine Or.inr ⟨u,
                StoreEntry.live
                  { value := obj.value
                    channels := obj.channels
                    allowed := obj.allowed
                    actor := prev.actor
                    url := u
                    lastModified := newLastModified prev.lastModified now },
                ?_, Or.inr ⟨prev, hlk⟩, ?_⟩
              · simp [applyOp, Graffiti.put, hobj, hlk, hv, ha]
              · intro o ho
                cases ho
                exact Or.inl rfl
            · exact Or.inl
                (by simp [applyOp, Graffiti.put, hobj, hlk, hv, ha])
  | patchOp fp u sess now =>
    cases hlk : storeLookup store u with
    | none => exact Or.inl (by simp [applyOp, Graffiti.patchWith, hlk])
    | some entry =>
      cases entry with
      | tombstone t =>
        exact Or.inl (by simp [applyOp, Graffiti.patchWith, hlk])
      | live o =>
        by_cases hv : isActorAllowedGraffitiObject o (some sess) = false
        · exact Or.inl (by simp [applyOp, Graffiti.patchWith, hlk, hv])
        · by_cases ha : sess.actor = o.actor
          · cases hfp : fp o with
            | error e =>
              exact Or.inl
                (by simp [applyOp, Graffiti.patchWith, hlk, hv, ha, hfp])
            | ok fields =>
              rcases fields with ⟨value, channels, allowed⟩
              refine Or.inr ⟨u,
                StoreEntry.live
                  { o with
                      value := value
                      channels := channels
                      allowed := allowed
                      lastModified := newLastModified o.lastModified now },
                ?_, Or.inr ⟨o, hlk⟩, ?_⟩
              · simp [applyOp, Graffiti.patchWith, hlk, hv, ha, hfp]
              · intro o' ho'
                cases ho'
                exact Or.inr ⟨o, hlk, rfl⟩
          · exact Or.inl
              (by simp [applyOp, Graffiti.patchWith, hlk, hv, ha])
  | deleteOp u sess now =>
    cases hlk : storeLookup store u with
    | none => exact Or.inl (by simp [applyOp, Graffiti.delete, hlk])
    | some entry =>
      cases entry with
      | tombstone t =>
        exact Or.inl (by simp [applyOp, Graffiti.delete, hlk])
      | live o =>
        by_cases hv : isActorAllowedGraffitiObject o (some sess) = false
        · exact Or.inl (by simp [applyOp, Graffiti.delete, hlk, hv])
        · by_cases ha : sess.actor = o.actor
          · refine Or.inr ⟨u,
              StoreEntry.tombstone (newLastModified o.lastModified now),
              ?_, Or.inr ⟨o, hlk⟩, ?_⟩
            · simp [applyOp, Graffiti.delete, hlk, hv, ha]
            · intro o' ho'
              cases ho'
          · exact Or.inl (by simp [applyOp, Graffiti.delete, hlk, hv, ha])

lemma tombstone_persists_applyOp (op : GraffitiOp) (store : Store)
    (url : String) (t : Nat)
    (h : storeLookup store url = some (.tombstone t))
    (hfresh : freshOk op store = true) :
    storeLookup (applyOp op store) url = some (.tombstone t) := by
  rcases applyOp_cases op store hfresh with heq | ⟨u, e, heq, hu, _⟩
  · rw [heq, h]
  · have hne : url ≠ u := by
      intro hc
      rcases hu with h1 | ⟨prev, h2⟩
      · rw [hc, h1] at h; cases h
      · rw [hc, h2] at h; cases h
    rw [heq, storeLookup_storeSet_ne store u url e hne, h]

lemma wellFormed_applyOp (op : GraffitiOp) (store : Store)
    (hwf : WellFormedStore store) (hfresh : freshOk op store = true) :
    WellFormedStore (applyOp op store) := by
  rcases applyOp_cases op store hfresh with heq | ⟨u, e, heq, _, hcons⟩
  · rw [heq]; exact hwf
  · rw [heq]
    refine wellFormed_storeSet store u e ?_ hwf
    cases e with
    | tombstone t => rfl
    | live o =>
      rcases hcons o rfl with h1 | ⟨prev, h2, h3⟩
      · simp [entryUrlConsistent, h1]
      · have := wf_lookup_live_url store u prev hwf h2
        simp [entryUrlConsistent, h3, this]

lemma tombstone_persists_applyOps (ops : List GraffitiOp) (store : Store)
    (url : String) (t : Nat)
    (h : storeLookup store url = some (.tombstone t))
    (hfresh : FreshAlong ops store = true) :
    storeLookup (applyOps ops store) url = some (.tombstone t) := by
  induction ops generalizing store with
  | nil => exact h
  | cons op rest ih =>
    rw [FreshAlong, Bool.and_eq_true] at hfresh
    exact ih (applyOp op store)
      (tombstone_persists_applyOp op store url t h hfresh.1) hfresh.2

lemma wellFormed_applyOps (ops : List GraffitiOp) (store : Store)
    (hwf : WellFormedStore store) (hfresh : FreshAlong ops store = true) :
    WellFormedStore (applyOps ops store) := by
  induction ops generalizing store with
  | nil => exact hwf
  | cons op rest ih =>
    rw [FreshAlong, Bool.and_eq_true] at hfresh
    exact ih (applyOp op store)
      (wellFormed_applyOp op store hwf hfresh.1) hfresh.2

lemma maskGraffitiObject_url_eq (o : GraffitiObjectBase)
    (C : List String) (a : Option String) :
    (maskGraffitiObject o C a).url = o.url := by
  unfold maskGraffitiObject
  split <;> rfl

lemma discoverEntryOfLive_url (C : List String)
    (schema : GraffitiObjectBase → Bool) (sess : Option GraffitiSession)
    (o m : GraffitiObjectBase)
    (h : Graffiti.discoverEntryOfLive C schema sess o = some m) :
    m.url = o.url := by
  unfold Graffiti.discoverEntryOfLive at h
  dsimp only at h
  repeat' split at h
  all_goals first
    | (cases h; exact maskGraffitiObject_url_eq o C _)
    | exact absurd h (by simp)

lemma discover_avoids_tombstoned_url (store : Store) (url : String) (t : Nat)
    (C : List String) (schema : GraffitiObjectBase → Bool)
    (sess : Option GraffitiSession) (hwf : WellFormedStore store)
    (h : storeLookup store url = some (.tombstone t)) :
    ∀ m ∈ Graffiti.discover C schema sess store, m.url ≠ url := by
  intro m hm hcontra
  rw [Graffiti.discover, List.mem_filterMap] at hm
  obtain ⟨p, hp, hpe⟩ := hm
  rcases p with ⟨u, e⟩
  cases e with
  | tombstone t' => exact absurd hpe (by simp)
  | live o =>
    have hmurl : m.url = o.url := discoverEntryOfLive_url C schema sess o m hpe
    have hou : o.url = u := by
      have hc := hwf.2 _ hp
      simpa [entryUrlConsistent] using hc
    have hlku : storeLookup store u = some (.live o) :=
      storeLookup_of_mem store u _ hwf.1 hp
    rw [hcontra] at hmurl
    rw [hmurl, hou] at h
    exact absurd (h.symm.trans hlku) (by simp)

/-- C3: once a url holds a tombstone it can never hold a live object
again — a put targeting that url fails NotFound rather than reviving it,
patch and delete at that url fail NotFound, get fails NotFound, a fresh
discover never emits an object with that url, and the tombstone (and
store well-formedness) survives every further mutation sequence whose
creates use globally fresh urls. -/
theorem tombstone_never_resurrected (store : Store) (url : String) (t : Nat)
    (h : storeLookup store url = some (.tombstone t)) :
    (∀ (obj : GraffitiPutObject) (sess : GraffitiSession) (now : Nat)
      (freshUrl : String), obj.url = some url →
      Graffiti.put obj sess now freshUrl store = .error .notFound) ∧
    (∀ (Op : Type) (engine : List Op → JSON → Except PatchFailure JSON)
      (p : GraffitiPatch Op) (sess : GraffitiSession) (now : Nat),
      Graffiti.patch engine p url sess now store = .error .notFound) ∧
    (∀ (sess : GraffitiSession) (now : Nat),
      Graffiti.delete url sess now store = .error .notFound) ∧
    (∀ (schema : GraffitiObjectBase → Bool) (sessOpt : Option GraffitiSession),
      Graffiti.get url schema sessOpt store = .error .notFound) ∧
    (WellFormedStore store →
      ∀ (C : List String) (schema : GraffitiObjectBase → Bool)
        (sessOpt : Option GraffitiSession)
        (m : GraffitiObjectBase),
        m ∈ Graffiti.discover C schema sessOpt store → m.url ≠ url) ∧
    (∀ ops, FreshAlong ops store = true →
      storeLookup (applyOps ops store) url = some (.tombstone t) ∧
      (WellFormedStore store → WellFormedStore (applyOps ops store))) := by
  refine ⟨?_, ?_, ?_, ?_, ?_, ?_⟩
  · intro obj sess now freshUrl hobj
    unfold Graffiti.put
    rw [hobj]
    simp [h]
  · intro Op engine p sess now
    unfold Graffiti.patch Graffiti.patchWith
    rw [h]
  · intro sess now
    unfold Graffiti.delete
    rw [h]
  · intro schema sessOpt
    unfold Graffiti.get
    rw [h]
  · intro hwf C schema sessOpt m hm
    exact discover_avoids_tombstoned_url store url t C schema sessOpt hwf h m hm
  · intro ops hfresh
    exact ⟨tombstone_persists_applyOps ops store url t h hfresh,
      fun hwf => wellFormed_applyOps ops store hwf hfresh⟩

/-- C3 (witness): a concrete deleted url — every access fails NotFound,
discover avoids it, and the tombstone survives a create-then-delete
sequence elsewhere in the store. -/
theorem tombstone_never_resurrected_witness :
    Graffiti.put ⟨.obj [], ["c"], .absent, some "d"⟩ ⟨"a"⟩ 10 "g"
        [("d", .tombstone 4)] = .error .notFound ∧
    Graffiti.patch (fun (_ : List Unit) j => .ok j) ⟨none, none, none⟩ "d"
        ⟨"a"⟩ 10 [("d", .tombstone 4)] = .error .notFound ∧
    Graffiti.delete "d" ⟨"a"⟩ 10 [("d", .tombstone 4)] = .error .notFound ∧
    Graffiti.get "d" (fun _ => true) none [("d", .tombstone 4)]
      = .error .notFound ∧
    (∀ m ∈ Graffiti.discover ["c"] (fun _ => true) none
        [("d", .tombstone 4)], m.url ≠ "d") ∧
    storeLookup
        (applyOps
          [.putOp ⟨.obj [], ["c"], .absent, none⟩ ⟨"a"⟩ 10 "g",
            .deleteOp "g" ⟨"a"⟩ 11]
          [("d", .tombstone 4)]) "d" = some (.tombstone 4) := by
  have H := tombstone_never_resurrected [("d", .tombstone 4)] "d" 4 rfl
  exact ⟨H.1 ⟨.obj [], ["c"], .absent, some "d"⟩ ⟨"a"⟩ 10 "g" rfl,
    H.2.1 Unit (fun _ j => .ok j) ⟨none, none, none⟩ ⟨"a"⟩ 10,
    H.2.2.1 ⟨"a"⟩ 10,
    H.2.2.2.1 (fun _ => true) none,
    H.2.2.2.2.1 ⟨by decide, by decide⟩ ["c"] (fun _ => true) none,
    (H.2.2.2.2.2
      [.putOp ⟨.obj [], ["c"], .absent, none⟩ ⟨"a"⟩ 10 "g",
        .deleteOp "g" ⟨"a"⟩ 11] rfl).1⟩

lemma lt_newLastModified (prev now : Nat) : prev < newLastModified prev now :=
  Nat.lt_of_lt_of_le (Nat.lt_succ_self prev) (Nat.le_max_right now (prev + 1))

/-- C4: every successful mutation of an existing live object — a
replacing put, a patch, or a delete — returns a `lastModified` strictly
greater than the value the object held before that mutation (never equal,
never less), and records that same new value in the store, so the
property chains along any sequence of successful mutations of one url. -/
theorem lastModified_strictly_increases (store : Store) (url : String)
    (o : GraffitiObjectBase)
    (h : storeLookup store url = some (.live o)) :
    (∀ (obj : GraffitiPutObject) (sess : GraffitiSession) (now : Nat)
      (freshUrl : String) (r : GraffitiObjectBase) (st' : Store),
      obj.url = some url →
      Graffiti.put obj sess now freshUrl store = .ok (r, st') →
      o.lastModified < r.lastModified ∧
      ∃ o', storeLookup st' url = some (.live o') ∧
        o'.lastModified = r.lastModified) ∧
    (∀ (Op : Type) (engine : List Op → JSON → Except PatchFailure JSON)
      (p : GraffitiPatch Op) (sess : GraffitiSession) (now : Nat)
      (r : GraffitiObjectBase) (st' : Store),
      Graffiti.patch engine p url sess now store = .ok (r, st') →
      o.lastModified < r.lastModified ∧
      ∃ o', storeLookup st' url = some (.live o') ∧
        o'.lastModified = r.lastModified) ∧
    (∀ (sess : GraffitiSession) (now : Nat) (r : GraffitiObjectBase)
      (st' : Store),
      Graffiti.delete url sess now store = .ok (r, st') →
      o.lastModified < r.lastModified ∧
      storeLookup st' url = some (.tombstone r.lastModified)) := by
  refine ⟨?_, ?_, ?_⟩
  · intro obj sess now freshUrl r st' hobj hput
    unfold Graffiti.put at hput
    rw [hobj] at hput
    simp only [h] at hput
    split at hput
    · exact absurd hput (by simp)
    · split at hput
      · cases hput
        refine ⟨lt_newLastModified o.lastModified now, ?_⟩
        exact ⟨_, storeLookup_storeSet_self store url _, rfl⟩
      · exact absurd hput (by simp)
  · intro Op engine p sess now r st' hpatch
    unfold Graffiti.patch Graffiti.patchWith at hpatch
    simp only [h] at hpatch
    split at hpatch
    · exact absurd hpatch (by simp)
    · split at hpatch
      · split at hpatch
        · exact absurd hpatch (by simp)
        · cases hpatch
          refine ⟨lt_newLastModified o.lastModified now, ?_⟩
          exact ⟨_, storeLookup_storeSet_self store url _, rfl⟩
      · exact absurd hpatch (by simp)
  · intro sess now r st' hdel
    unfold Graffiti.delete at hdel
    simp only [h] at hdel
    split at hdel
    · exact absurd hdel (by simp)
    · split at hdel
      · cases hdel
        exact ⟨lt_newLastModified o.lastModified now,
          storeLookup_storeSet_self store url _⟩
      · exact absurd hdel (by simp)

/-- C4 (witness): the strict increase at a concrete store, even when the
clock (`now = 1`) lags behind the object's `lastModified = 2`. -/
theorem lastModified_strictly_increases_witness :
    (visObject.lastModified <
        (GraffitiObjectBase.lastModified
          { visObject with lastModified := 3 }) ∧
      ∃ o', storeLookup
          [("v", StoreEntry.live
            { value := .obj [], channels := ["k"], allowed := .absent,
              actor := "alice", url := "v", lastModified := 3 })] "v"
          = some (.live o') ∧
        o'.lastModified =
          (GraffitiObjectBase.lastModified
            { visObject with lastModified := 3 })) ∧
    (visObject.lastModified <
        (GraffitiObjectBase.lastModified
          { visObject with lastModified := 3 }) ∧
      ∃ o', storeLookup
          [("v", StoreEntry.live { visObject with lastModified := 3 })] "v"
          = some (.live o') ∧
        o'.lastModified =
          (GraffitiObjectBase.lastModified
            { visObject with lastModified := 3 })) ∧
    (visObject.lastModified <
        (GraffitiObjectBase.lastModified
          { visObject with lastModified := 3 }) ∧
      storeLookup [("v", StoreEntry.tombstone 3)] "v"
        = some (.tombstone
            (GraffitiObjectBase.lastModified
              { visObject with lastModified := 3 }))) := by
  have H := lastModified_strictly_increases [("v", .live visObject)] "v"
    visObject rfl
  exact ⟨H.1 ⟨.obj [], ["k"], .absent, some "v"⟩ ⟨"alice"⟩ 1 "f"
      { visObject with lastModified := 3 }
      [("v", StoreEntry.live
        { value := .obj [], channels := ["k"], allowed := .absent,
          actor := "alice", url := "v", lastModified := 3 })] rfl rfl,
    H.2.1 Unit (fun _ j => .ok j) ⟨none, none, none⟩ ⟨"alice"⟩ 1
      { visObject with lastModified := 3 }
      [("v", StoreEntry.live { visObject with lastModified := 3 })] rfl,
    H.2.2 ⟨"alice"⟩ 1 { visObject with lastModified := 3 }
      [("v", StoreEntry.tombstone 3)] rfl⟩

lemma applyFieldPatch_error {Op : Type}
    (engine : List Op → JSON → Except PatchFailure JSON)
    (ops : Option (List Op)) (doc : JSON) (e : GraffitiError)
    (h : applyFieldPatch engine ops doc = .error e) :
    e = .patchTestFailed ∨ e = .patchError := by
  unfold applyFieldPatch at h
  split at h
  · exact absurd h (by simp)
  · split at h
    · exact absurd h (by simp)
    · cases h
      exact Or.inl rfl
    · cases h
      exact Or.inr rfl

lemma patchObjectFields_error {Op : Type}
    (engine : List Op → JSON → Except PatchFailure JSON)
    (p : GraffitiPatch Op) (o : GraffitiObjectBase) (e : GraffitiError)
    (h : patchObjectFields engine p o = .error e) :
    e = .patchTestFailed ∨ e = .patchError := by
  unfold patchObjectFields at h
  repeat' split at h
  all_goals
    cases h <;>
      first
      | exact Or.inr rfl
      | exact applyFieldPatch_error engine p.value o.value _ (by assumption)
      | exact applyFieldPatch_error engine p.channels
          (jsonOfChannels o.channels) _ (by assumption)
      | exact applyFieldPatch_error engine p.allowed
          (jsonOfAllowed o.allowed) _ (by assumption)

/-- C5: patch is all-or-nothing — for an existing visible object owned by
the caller, if applying any field's patch operation list fails (a
structural error, a failed `test` assertion, or a result violating the
field-type invariants), the whole patch call rejects with that patch
error and the store — hence the object's `value`, `channels`, `allowed`
and `lastModified` — is left exactly as it was. -/
theorem patch_all_or_nothing (Op : Type)
    (engine : List Op → JSON → Except PatchFailure JSON)
    (p : GraffitiPatch Op) (store : Store) (url : String)
    (o : GraffitiObjectBase) (sess : GraffitiSession) (now : Nat)
    (e : GraffitiError)
    (hlive : storeLookup store url = some (.live o))
    (hvis : isActorAllowedGraffitiObject o (some sess) = true)
    (hown : sess.actor = o.actor)
    (hfail : patchObjectFields engine p o = .error e) :
    Graffiti.patch engine p url sess now store = .error e ∧
    (e = .patchTestFailed ∨ e = .patchError) ∧
    applyOp (.patchOp (patchObjectFields engine p) url sess now) store
      = store ∧
    storeLookup
      (applyOp (.patchOp (patchObjectFields engine p) url sess now) store)
      url = some (.live o) := by
  have hp : Graffiti.patch engine p url sess now store = .error e := by
    unfold Graffiti.patch Graffiti.patchWith
    simp only [hlive]
    simp [hvis, hown, hfail]
  have hs : applyOp (.patchOp (patchObjectFields engine p) url sess now)
      store = store := by
    have hp' : Graffiti.patchWith (patchObjectFields engine p) url sess now
        store = .error e := hp
    simp [applyOp, hp']
  refine ⟨hp, patchObjectFields_error engine p o e hfail, hs, ?_⟩
  rw [hs]
  exact hlive

/-- An engine whose only operation is a failing `test` assertion. -/
def failingTestEngine : List Unit → JSON → Except PatchFailure JSON :=
  fun _ _ => .error .testFailed

/-- An engine that replaces the whole document with JSON null. -/
def nullifyingEngine : List Unit → JSON → Except PatchFailure JSON :=
  fun _ _ => .ok .null

/-- C5 (witness): a failing `test` assertion on `value`, and a patch
making `channels` a non-array, each reject atomically at a concrete
store and leave the object untouched. -/
theorem patch_all_or_nothing_witness :
    (Graffiti.patch failingTestEngine ⟨some [()], none, none⟩ "v" ⟨"alice"⟩ 8
        [("v", .live visObject)] = .error .patchTestFailed ∧
      (GraffitiError.patchTestFailed = .patchTestFailed ∨
        GraffitiError.patchTestFailed = .patchError) ∧
      applyOp (.patchOp (patchObjectFields failingTestEngine
          ⟨some [()], none, none⟩) "v" ⟨"alice"⟩ 8)
        [("v", .live visObject)] = [("v", .live visObject)] ∧
      storeLookup (applyOp (.patchOp (patchObjectFields failingTestEngine
          ⟨some [()], none, none⟩) "v" ⟨"alice"⟩ 8)
        [("v", .live visObject)]) "v" = some (.live visObject)) ∧
    (Graffiti.patch nullifyingEngine ⟨none, some [()], none⟩ "v" ⟨"alice"⟩ 8
        [("v", .live visObject)] = .error .patchError ∧
      (GraffitiError.patchError = .patchTestFailed ∨
        GraffitiError.patchError = .patchError) ∧
      applyOp (.patchOp (patchObjectFields nullifyingEngine
          ⟨none, some [()], none⟩) "v" ⟨"alice"⟩ 8)
        [("v", .live visObject)] = [("v", .live visObject)] ∧
      storeLookup (applyOp (.patchOp (patchObjectFields nullifyingEngine
          ⟨none, some [()], none⟩) "v" ⟨"alice"⟩ 8)
        [("v", .live visObject)]) "v" = some (.live visObject)) :=
  ⟨patch_all_or_nothing Unit failingTestEngine ⟨some [()], none, none⟩
      [("v", .live visObject)] "v" visObject ⟨"alice"⟩ 8 .patchTestFailed
      rfl rfl rfl rfl,
    patch_all_or_nothing Unit nullifyingEngine ⟨none, some [()], none⟩
      [("v", .live visObject)] "v" visObject ⟨"alice"⟩ 8 .patchError
      rfl rfl rfl rfl⟩

/-- C6: a successful put returns the previous state at the target url —
on replacement the pre-replacement `value`, `channels` and `allowed`
(with `lastModified` updated to the time of this put, strictly above the
old value), and on creation an object with empty `value`, `channels` and
`allowed` list stamped with the creation time. -/
theorem put_returns_previous (store : Store) (freshUrl : String)
    (obj : GraffitiPutObject) (sess : GraffitiSession) (now : Nat) :
    (obj.url = none →
      ∃ r st', Graffiti.put obj sess now freshUrl store = .ok (r, st') ∧
        r.value = .obj [] ∧ r.channels = [] ∧ r.allowed = .list [] ∧
        r.actor = sess.actor ∧ r.url = freshUrl ∧ r.lastModified = now) ∧
    (∀ url prev, obj.url = some url →
      storeLookup store url = some (.live prev) →
      isActorAllowedGraffitiObject prev (some sess) = true →
      sess.actor = prev.actor →
      ∃ r st', Graffiti.put obj sess now freshUrl store = .ok (r, st') ∧
        r.value = prev.value ∧ r.channels = prev.channels ∧
        r.allowed = prev.allowed ∧ r.actor = prev.actor ∧
        r.url = prev.url ∧
        r.lastModified = newLastModified prev.lastModified now ∧
        prev.lastModified < r.lastModified) := by
  constructor
  · intro hobj
    refine ⟨{ value := .obj []
              channels := []
              allowed := .list []
              actor := sess.actor
              url := freshUrl
              lastModified := now },
      storeSet store freshUrl (.live
        { value := obj.value
          channels := obj.channels
          allowed := obj.allowed
          actor := sess.actor
          url := freshUrl
          lastModified := now }),
      ?_, rfl, rfl, rfl, rfl, rfl, rfl⟩
    unfold Graffiti.put
    rw [hobj]
  · intro url prev hobj hlk hvis hown
    refine ⟨{ prev with lastModified := newLastModified prev.lastModified now },
      storeSet store url (.live
        { value := obj.value
          channels := obj.channels
          allowed := obj.allowed
          actor := prev.actor
          url := url
          lastModified := newLastModified prev.lastModified now }),
      ?_, rfl, rfl, rfl, rfl, rfl, rfl,
      lt_newLastModified prev.lastModified now⟩
    unfold Graffiti.put
    rw [hobj]
    simp [hlk, hvis, hown]

/-- C6 (witness): a concrete creation returns the empty previous state
and a concrete replacement returns the replaced object's fields. -/
theorem put_returns_previous_witness :
    (∃ r st', Graffiti.put ⟨.obj [], ["c"], .absent, none⟩ ⟨"a"⟩ 5 "u0"
        ([] : Store) = .ok (r, st') ∧
      r.value = .obj [] ∧ r.channels = [] ∧ r.allowed = .list [] ∧
      r.actor = "a" ∧ r.url = "u0" ∧ r.lastModified = 5) ∧
    (∃ r st', Graffiti.put ⟨.obj [], ["k"], .absent, some "v"⟩ ⟨"alice"⟩ 1 "f"
        [("v", .live visObject)] = .ok (r, st') ∧
      r.value = visObject.value ∧ r.channels = visObject.channels ∧
      r.allowed = visObject.allowed ∧ r.actor = visObject.actor ∧
      r.url = visObject.url ∧
      r.lastModified = newLastModified visObject.lastModified 1 ∧
      visObject.lastModified < r.lastModified) :=
  ⟨(put_returns_previous [] "u0" ⟨.obj [], ["c"], .absent, none⟩
      ⟨"a"⟩ 5).1 rfl,
    (put_returns_previous [("v", .live visObject)] "f"
      ⟨.obj [], ["k"], .absent, some "v"⟩ ⟨"alice"⟩ 1).2 "v" visObject
      rfl rfl rfl rfl⟩

/-- C7: discover evaluates the caller's schema against the masked view of
each candidate — for a visible non-creator requester the object is
emitted exactly when the schema accepts the masked view (so a constraint
satisfiable only by the full `allowed` or the full `channels` can never
match), while for the creator the schema is evaluated against the
unmasked object. -/
theorem discover_schema_on_masked_view (o : GraffitiObjectBase)
    (C : List String) (schema : GraffitiObjectBase → Bool) (R : String)
    (hne : R ≠ o.actor)
    (hvis : isActorAllowedGraffitiObject o (some ⟨R⟩) = true)
    (hch : o.channels.any (fun c => C.contains c) = true) :
    Graffiti.discover C schema (some ⟨R⟩) [(o.url, .live o)]
      = (if schema (maskGraffitiObject o C (some R)) = true
          then [maskGraffitiObject o C (some R)] else []) ∧
    Graffiti.discover C schema (some ⟨o.actor⟩) [(o.url, .live o)]
      = (if schema o = true then [o] else []) := by
  have hch' : ∃ x ∈ o.channels, x ∈ C := by simpa using hch
  constructor
  · by_cases hs : schema (maskGraffitiObject o C (some R)) = true
    · simp [Graffiti.discover, Graffiti.discoverEntryOfLive, hch', hvis, hs]
    · simp [Graffiti.discover, Graffiti.discoverEntryOfLive, hch', hvis, hs]
  · have hvisC := isActorAllowed_creator o
    have hmC := maskGraffitiObject_creator o C
    by_cases hs : schema o = true
    · simp [Graffiti.discover, Graffiti.discoverEntryOfLive, hch', hvisC,
        hmC, hs]
    · simp [Graffiti.discover, Graffiti.discoverEntryOfLive, hch', hvisC,
        hmC, hs]

/-- A private three-recipient object in three channels. -/
def schemaObject : GraffitiObjectBase :=
  { value := .obj [], channels := ["c1", "c2", "c3"],
    allowed := .list ["x", "bob", "y"], actor := "alice", url := "s",
    lastModified := 4 }

/-- A schema satisfiable only by an allowed list with at least three
entries (only the creator's full view qualifies). -/
def bigAllowedSchema : GraffitiObjectBase → Bool :=
  fun m =>
    match m.allowed with
    | .list l => decide (3 ≤ l.length)
    | _ => false

/-- A schema on the masked view: the allowed list is exactly the
singleton of the requester `"bob"`. -/
def singletonAllowedSchema : GraffitiObjectBase → Bool :=
  fun m =>
    match m.allowed with
    | .list l => decide (l = ["bob"])
    | _ => false

/-- C7 (witness): for the non-creator `"bob"` a schema demanding three
allowed entries matches nothing while the singleton-of-requester schema
matches; for the creator `"alice"` it is the other way around. -/
theorem discover_schema_on_masked_view_witness :
    Graffiti.discover ["c1", "c3"] bigAllowedSchema (some ⟨"bob"⟩)
      [("s", .live schemaObject)] = [] ∧
    Graffiti.discover ["c1", "c3"] bigAllowedSchema (some ⟨"alice"⟩)
      [("s", .live schemaObject)] = [schemaObject] ∧
    Graffiti.discover ["c1", "c3"] singletonAllowedSchema (some ⟨"bob"⟩)
      [("s", .live schemaObject)]
      = [maskGraffitiObject schemaObject ["c1", "c3"] (some "bob")] ∧
    Graffiti.discover ["c1", "c3"] singletonAllowedSchema (some ⟨"alice"⟩)
      [("s", .live schemaObject)] = [] := by
  have H1 := discover_schema_on_masked_view schemaObject ["c1", "c3"]
    bigAllowedSchema "bob" (by decide) rfl rfl
  have H2 := discover_schema_on_masked_view schemaObject ["c1", "c3"]
    singletonAllowedSchema "bob" (by decide) rfl rfl
  exact ⟨H1.1.trans rfl, H1.2.trans rfl, H2.1.trans rfl, H2.2.trans rfl⟩

lemma replace_sequence_singleton (obj : GraffitiPutObject)
    (sess : GraffitiSession) (f : String) (ts : List Nat)
    (o : GraffitiObjectBase)
    (hactor : o.actor = sess.actor) (hurl : o.url = f)
    (hallowed : obj.allowed = .absent) (hoallowed : o.allowed = .absent)
    (hchannels : o.channels = obj.channels) :
    ∃ o', applyOps
        (ts.map (fun t => .putOp { obj with url := some f } sess t f))
        [(f, .live o)] = [(f, .live o')] ∧
      o'.actor = sess.actor ∧ o'.url = f ∧ o'.allowed = .absent ∧
      o'.channels = obj.channels := by
  induction ts generalizing o with
  | nil => exact ⟨o, rfl, hactor, hurl, hoallowed, hchannels⟩
  | cons t rest ih =>
    have hvis : isActorAllowedGraffitiObject o (some sess) = true := by
      simp [isActorAllowedGraffitiObject, hoallowed]
    have hown : sess.actor = o.actor := hactor.symm
    have hstep : applyOp (.putOp { obj with url := some f } sess t f)
        [(f, .live o)]
        = [(f, .live
            { value := obj.value
              channels := obj.channels
              allowed := obj.allowed
              actor := o.actor
              url := f
              lastModified := newLastModified o.lastModified t })] := by
      simp [applyOp, Graffiti.put, storeLookup, storeSet, hvis, hown]
    rw [List.map_cons]
    show ∃ o', applyOps _ (applyOp _ [(f, .live o)]) = _ ∧ _
    rw [hstep]
    exact ih
      { value := obj.value
        channels := obj.channels
        allowed := obj.allowed
        actor := o.actor
        url := f
        lastModified := newLastModified o.lastModified t }
      hactor rfl hallowed rfl

lemma any_contains_self_exists (l : List String) (h : l ≠ []) :
    ∃ x ∈ l, x ∈ l := by
  cases hl : l with
  | nil => exact absurd hl h
  | cons c cs => exact ⟨c, by simp, by simp⟩

/-- C8: one initial create followed by any number of replacing puts of
the same payload at the created url — in any serialization order, with
arbitrary (even equal) clock readings — leaves exactly one live entry,
so a fresh discover over the object's channels afterwards yields exactly
one live object entry, and the store holds no tombstone at any url (a
fresh discover emits zero tombstone entries). -/
theorem put_concurrently_discover_one (obj : GraffitiPutObject)
    (sess : GraffitiSession) (t0 : Nat) (f : String) (ts : List Nat)
    (hurl : obj.url = none) (hallowed : obj.allowed = .absent)
    (hch : obj.channels ≠ []) (r0 : GraffitiObjectBase) (s0 : Store)
    (hcreate : Graffiti.put obj sess t0 f [] = .ok (r0, s0)) :
    (Graffiti.discover obj.channels (fun _ => true) none
        (applyOps
          (ts.map (fun t => .putOp { obj with url := some f } sess t f))
          s0)).length = 1 ∧
    (∀ u t', storeLookup
        (applyOps
          (ts.map (fun t => .putOp { obj with url := some f } sess t f))
          s0) u
      ≠ some (.tombstone t')) := by
  have hs0 : s0 = [(f, .live
      { value := obj.value
        channels := obj.channels
        allowed := obj.allowed
        actor := sess.actor
        url := f
        lastModified := t0 })] := by
    unfold Graffiti.put at hcreate
    rw [hurl] at hcreate
    cases hcreate
    rfl
  obtain ⟨o', hfinal, hactor', hurl', hallowed', hch'⟩ :=
    replace_sequence_singleton obj sess f ts
      { value := obj.value
        channels := obj.channels
        allowed := obj.allowed
        actor := sess.actor
        url := f
        lastModified := t0 }
      rfl rfl hallowed hallowed rfl
  rw [hs0]
  rw [hfinal]
  constructor
  · have hchex := any_contains_self_exists obj.channels hch
    have hvis : isActorAllowedGraffitiObject o' none = true := by
      simp [isActorAllowedGraffitiObject, hallowed']
    simp [Graffiti.discover, Graffiti.discoverEntryOfLive,
      List.filterMap_cons, hvis]
    rw [hch', if_pos hchex]
    rfl
  · intro u t'
    by_cases hu : f = u
    · simp [storeLookup, hu]
    · simp [storeLookup, hu]

/-- C8 (witness): one concrete create followed by 99 replacing puts of
the same url — discover over the object's channels yields exactly one
entry and the store holds no tombstone. -/
theorem put_concurrently_discover_one_witness :
    (Graffiti.discover ["c1", "c2"] (fun _ => true) none
        (applyOps
          ((List.replicate 99 0).map (fun t =>
            .putOp { value := JSON.obj [], channels := ["c1", "c2"],
                     allowed := .absent, url := some "u" } ⟨"a"⟩ t "u"))
          [("u", .live
            { value := .obj [], channels := ["c1", "c2"],
              allowed := .absent, actor := "a", url := "u",
              lastModified := 0 })])).length = 1 ∧
    (∀ u t', storeLookup
        (applyOps
          ((List.replicate 99 0).map (fun t =>
            .putOp { value := JSON.obj [], channels := ["c1", "c2"],
                     allowed := .absent, url := some "u" } ⟨"a"⟩ t "u"))
          [("u", .live
            { value := .obj [], channels := ["c1", "c2"],
              allowed := .absent, actor := "a", url := "u",
              lastModified := 0 })]) u
      ≠ some (.tombstone t')) :=
  put_concurrently_discover_one
    ⟨.obj [], ["c1", "c2"], .absent, none⟩ ⟨"a"⟩ 0 "u"
    (List.replicate 99 0) rfl rfl (by decide)
    { value := .obj [], channels := [], allowed := .list [],
      actor := "a", url := "u", lastModified := 0 }
    [("u", .live
      { value := .obj [], channels := ["c1", "c2"], allowed := .absent,
        actor := "a", url := "u", lastModified := 0 })]
    rfl
